import Mathlib

/-!
Shallow embedding of the aio-tcpwave DHCP client (src/aiotcpwave/dhcp.py).

The repository's core is `TCPWaveDCHP`: a concurrent fan-out lease fetcher.
`_fetch_dhcp_leases_tasker` launches one HTTP request per DHCP server, yields
the task handles first, then yields lease records as the tasks complete (in
completion order, via `asyncio.as_completed`).  Per-task failures are
classified: a `ReadTimeout` or a non-2xx response whose body starts with
`TIMS-3961` is skipped; any other error response raises through
`res.raise_for_status()` (httpx 0.17, the pinned version: raises exactly for
4xx/5xx statuses, the same statuses for which `res.is_error` is true).

The embedding represents one aggregation run by the list of per-task outcomes
in completion order (`TaskResult`), and the generator's yielded sequence by
`taskerEvents` (records, optionally terminated by one raised error).
Consumers (`fetch_dhcp_leases`, the find methods) are modelled as explicit
folds over that event list, returning `Except` for raised exceptions and a
run record that also reports how many events were consumed and whether the
cancel-all loop (`for t in tasks: t.cancel()`) was executed.

The server directory `self.dhcp_servers` is a `bidict` (bidict 0.21, the
pinned version: inserting a duplicate value raises `ValueDuplicationError`; a
failed `update` rolls back to the state at the start of the update - "fails
clean").  It is modelled as an association list with the bidict insertion
discipline.
-/

/-- Error values raised by the modelled code paths: `transportError` models
`httpx.HTTPStatusError` from `raise_for_status` (the spec's `TransportError`),
`keyError` a Python `KeyError` from a dict/bidict lookup,
`valueDuplicationError` bidict's duplicate-value rejection, and
`invalidArgument` the spec's `InvalidArgument`. -/
inductive TWErr where
  | transportError (status : Nat)
  | keyError
  | valueDuplicationError
  | invalidArgument
deriving DecidableEq

/-- DHCP lease record: a JSON object from the backend, modelled as an
association list of field name to value, a value being a string or null. -/
abbrev LeaseRec := List (String × Option String)

/-- Python dict lookup `d[k]` (first binding wins; `none` models `KeyError`). -/
def alookup {α : Type} : List (String × α) → String → Option α
  | [], _ => none
  | p :: rest, k => if p.1 = k then some p.2 else alookup rest k

/-- Python dict item assignment `r[k] = v` on a lease record: the new binding
shadows any previous binding of `k` and every other field is unchanged. -/
def recSet (r : LeaseRec) (k : String) (v : Option String) : LeaseRec :=
  (k, v) :: List.filter (fun p => p.1 != k) r

/-- Python `str.startswith`, written over the character lists so that it is
evaluable by `decide`; it agrees with `String.startsWith`. -/
def strStartsWith (s pre : String) : Bool :=
  pre.data.isPrefixOf s.data

/-- Status classification of httpx 0.17: `Response.is_error` holds for 4xx and
5xx statuses, and `raise_for_status` raises exactly for those statuses. -/
def is_error_status (s : Nat) : Bool := decide (400 ≤ s) && decide (s < 600)

/-- One HTTP response from `/dhcpserver/dhcpActiveLeases`: its status code, its
text body, and the decoded `body["rows"]` list of lease records. -/
structure Response where
  status : Nat
  text : String
  rows : List LeaseRec
deriving DecidableEq

/-- httpx `Response.is_error` (4xx/5xx). -/
def Response.is_error (res : Response) : Bool := is_error_status res.status

/-- httpx 0.17 `Response.raise_for_status`: raises `HTTPStatusError` for client
and server error statuses, otherwise a no-op. -/
def Response.raise_for_status (res : Response) : Except TWErr Unit :=
  if is_error_status res.status then Except.error (TWErr.transportError res.status)
  else Except.ok ()

/-- Outcome of one per-server fetch task, in completion order: the awaited
task either raised `httpx.ReadTimeout` or produced a response. -/
inductive TaskResult where
  | readTimeout
  | response (res : Response)
deriving DecidableEq

/-- One event yielded by the `_fetch_dhcp_leases_tasker` generator after the
initial task-list yield: a lease record, or an exception raised out of it. -/
inductive StreamEvent where
  | record (r : LeaseRec)
  | err (e : TWErr)
deriving DecidableEq

/-- Drain loop of `_fetch_dhcp_leases_tasker` (dhcp.py lines 208-224): for each
completed task, a `ReadTimeout` is skipped (`continue`); a `res.is_error`
response whose text starts with `TIMS-3961` is skipped; otherwise
`res.raise_for_status()` runs (raising for any remaining error status, which
terminates the generator) and the rows of `res.json()` are yielded in order. -/
def taskerEvents : List TaskResult → List StreamEvent
  | [] => []
  | TaskResult.readTimeout :: rest => taskerEvents rest
  | TaskResult.response res :: rest =>
    if res.is_error && strStartsWith res.text ("TIMS-3961") then taskerEvents rest
    else
      match res.raise_for_status with
      | Except.error e => [StreamEvent.err e]
      | Except.ok _ => res.rows.map StreamEvent.record ++ taskerEvents rest

/-- Consuming the generator to the end: the records seen, or the exception it
raised (which aborts the iteration). -/
def collectStream : List StreamEvent → Except TWErr (List LeaseRec)
  | [] => Except.ok []
  | StreamEvent.err e :: _ => Except.error e
  | StreamEvent.record r :: rest =>
    match collectStream rest with
    | Except.ok l => Except.ok (r :: l)
    | Except.error e => Except.error e

/-- `fetch_dhcp_leases` (dhcp.py lines 55-74): discards the task-list yield and
re-yields every record of the tasker; a caller iterating it to exhaustion sees
exactly the drained records, or the exception the drain raised. -/
def fetch_dhcp_leases (trs : List TaskResult) : Except TWErr (List LeaseRec) :=
  collectStream (taskerEvents trs)

/-- A task outcome that aborts the drain: a response with an error status whose
body does not start with `TIMS-3961`. -/
def isHardError : TaskResult → Bool
  | TaskResult.readTimeout => false
  | TaskResult.response res => res.is_error && !(strStartsWith res.text ("TIMS-3961"))

/-- Records contributed by one task outcome: a successful response contributes
its rows in response order; a timeout or an error response contributes none. -/
def contribution : TaskResult → List LeaseRec
  | TaskResult.readTimeout => []
  | TaskResult.response res => if res.is_error then [] else res.rows

/-- Records of the whole aggregated stream, in completion order, when no task
aborts the drain. -/
def streamRecords (trs : List TaskResult) : List LeaseRec :=
  (trs.map contribution).flatten

/-- DHCP server record from `/dhcpserver/list` (the two fields the code
reads: `rec["name"]` and `rec["v4_ipaddress"]`). -/
structure SrvRec where
  name : String
  v4_ipaddress : String
deriving DecidableEq

/-- Response of the `/dhcpserver/list` request: status code and decoded JSON
body (an array of server records). -/
structure ListResponse where
  status : Nat
  body : List SrvRec
deriving DecidableEq

/-- httpx 0.17 `raise_for_status` for the server-list response. -/
def ListResponse.raise_for_status (res : ListResponse) : Except TWErr Unit :=
  if is_error_status res.status then Except.error (TWErr.transportError res.status)
  else Except.ok ()

/-- The `self.dhcp_servers` bidict: server-name to v4-address pairs. -/
abbrev ServerDir := List (String × String)

/-- bidict 0.21 single insertion: a value already bound to a different key
raises `ValueDuplicationError`; otherwise the key's binding (if any) is
replaced. -/
def bidictPut (bd : ServerDir) (k v : String) : Except TWErr ServerDir :=
  if bd.any (fun p => p.2 == v && p.1 != k) then Except.error TWErr.valueDuplicationError
  else Except.ok (bd.filter (fun p => p.1 != k) ++ [(k, v)])

/-- bidict 0.21 `update`: repeated insertion; the update "fails clean", so on
failure the caller's bidict keeps the state it had when the update started. -/
def bidictUpdate (bd : ServerDir) : List (String × String) → Except TWErr ServerDir
  | [] => Except.ok bd
  | p :: rest =>
    match bidictPut bd p.1 p.2 with
    | Except.error e => Except.error e
    | Except.ok bd2 => bidictUpdate bd2 rest

/-- Python dict insertion, for the comprehension in `fetch_dhcp_servers`: a
repeated key overwrites its value in place, a new key is appended. -/
def dictInsert (acc : List (String × String)) (k v : String) : List (String × String) :=
  if (alookup acc k).isSome then acc.map (fun p => if p.1 == k then (k, v) else p)
  else acc ++ [(k, v)]

/-- The dict comprehension of dhcp.py line 52:
`{rec["name"]: rec["v4_ipaddress"] for rec in body}` (later duplicates of a
name overwrite earlier ones). -/
def dictOfBody (body : List SrvRec) : List (String × String) :=
  body.foldl (fun acc r => dictInsert acc r.name r.v4_ipaddress) []

/-- `fetch_dhcp_servers` (dhcp.py lines 32-53): `raise_for_status`, then
`self.dhcp_servers.clear()` followed by `self.dhcp_servers.update({...})`.
The argument `st` is the directory before the call; the returned pair is the
raised or returned value together with the directory after the call.  The
`clear()` runs before the update, so a failing update leaves the directory
empty (bidict itself fails clean, rolling back only to the post-clear state);
there is no `await` point between the clear and the update, so no other
asyncio task can observe the intermediate state. -/
def fetch_dhcp_servers (st : ServerDir) (res : ListResponse) :
    Except TWErr (List SrvRec) × ServerDir :=
  match res.raise_for_status with
  | Except.error e => (Except.error e, st)
  | Except.ok _ =>
    match bidictUpdate [] (dictOfBody res.body) with
    | Except.error e => (Except.error e, [])
    | Except.ok bd => (Except.ok res.body, bd)

/-- `self.dhcp_servers[name]` (`none` models the raised `KeyError`, the
spec's `NotFoundError`). -/
def resolveAddress (bd : ServerDir) (name : String) : Option String :=
  alookup bd name

/-- `self.dhcp_servers.inv[addr]` (`none` models the raised `KeyError`). -/
def resolveName (bd : ServerDir) (addr : String) : Option String :=
  (bd.find? (fun p => p.2 == addr)).map (fun p => p.1)

/-- Record enrichment of the find methods (dhcp.py lines 110 and 147):
`found["dhcpServerName"] = self.dhcp_servers.inv[rec["dhcpServer"]]` - a
missing `dhcpServer` field, a null value, or an address absent from the
directory raises `KeyError`. -/
def enrich (bd : ServerDir) (r : LeaseRec) : Except TWErr LeaseRec :=
  match alookup r ("dhcpServer") with
  | some (some addr) =>
    match resolveName bd addr with
    | some nm => Except.ok (recSet r ("dhcpServerName") (some nm))
    | none => Except.error TWErr.keyError
  | _ => Except.error TWErr.keyError

/-- Total companion of `enrich`, used to state results when enrichment is
known to succeed (it returns the record unchanged where `enrich` raises). -/
def enrichF (bd : ServerDir) (r : LeaseRec) : LeaseRec :=
  match alookup r ("dhcpServer") with
  | some (some addr) =>
    match resolveName bd addr with
    | some nm => recSet r ("dhcpServerName") (some nm)
    | none => r
  | _ => r

/-- Whether `enrich` succeeds on this record. -/
def enrichOk (bd : ServerDir) (r : LeaseRec) : Bool :=
  match enrich bd r with
  | Except.ok _ => true
  | Except.error _ => false

/-- Result of one run of a find-first method: the returned or raised value,
the number of stream events the method consumed, and whether the method ran
the cancel-all loop (`for t in tasks: t.cancel()`) over the task list. -/
structure FindRun where
  result : Except TWErr (Option LeaseRec)
  consumed : Nat
  cancelledAll : Bool

/-- The `async for`-with-`break` loop shared by `find_dhcp_lease_ipaddr` and
`find_dhcp_lease_macaddr` (the two methods are textually identical except for
the matched field name): each record's `rec[field]` is read (a missing field
raises `KeyError`); on the first record whose field equals the target the
loop breaks, every task in the task list is cancelled (before enrichment, so
`cancelledAll` is true even when the enrichment lookup then raises), and the
enriched record is returned; an exhausted stream returns `None` through the
`for`-`else`; an exception from the generator propagates without any
cancellation. -/
def findLoopBy (bd : ServerDir) (field target : String) : List StreamEvent → FindRun
  | [] => FindRun.mk (Except.ok none) 0 false
  | StreamEvent.err e :: _ => FindRun.mk (Except.error e) 1 false
  | StreamEvent.record r :: rest =>
    match alookup r field with
    | none => FindRun.mk (Except.error TWErr.keyError) 1 false
    | some v =>
      if v = some target then
        match enrich bd r with
        | Except.ok r2 => FindRun.mk (Except.ok (some r2)) 1 true
        | Except.error e => FindRun.mk (Except.error e) 1 true
      else
        let fr := findLoopBy bd field target rest
        FindRun.mk fr.result (fr.consumed + 1) fr.cancelledAll

/-- `find_dhcp_lease_ipaddr` (dhcp.py lines 76-111), matching on `address`. -/
def find_dhcp_lease_ipaddr (bd : ServerDir) (ipaddr : String)
    (trs : List TaskResult) : FindRun :=
  findLoopBy bd ("address") ipaddr (taskerEvents trs)

/-- `find_dhcp_lease_macaddr` (dhcp.py lines 113-148), matching on `mac`. -/
def find_dhcp_lease_macaddr (bd : ServerDir) (macaddr : String)
    (trs : List TaskResult) : FindRun :=
  findLoopBy bd ("mac") macaddr (taskerEvents trs)

/-- First record of the stream whose `field` equals `target` - exact string
equality, no case or separator normalisation - i.e. the record the find loop
breaks on. -/
def firstMatchBy (field target : String) : List LeaseRec → Option LeaseRec
  | [] => none
  | r :: rest =>
    match alookup r field with
    | some v => if v = some target then some r else firstMatchBy field target rest
    | none => firstMatchBy field target rest

/-- Collection loop of `find_dhcp_lease_matching` (dhcp.py lines 160-162):
consumes every event, appending each record satisfying the matcher; an
exception from the generator propagates, discarding the collected list.  The
second component counts the events consumed. -/
def matchLoop (matcher : LeaseRec → Bool) :
    List StreamEvent → Except TWErr (List LeaseRec) × Nat
  | [] => (Except.ok [], 0)
  | StreamEvent.err e :: _ => (Except.error e, 1)
  | StreamEvent.record r :: rest =>
    let pr := matchLoop matcher rest
    (Except.map (fun l => if matcher r then r :: l else l) pr.1, pr.2 + 1)

/-- Enrichment loop after collection (dhcp.py lines 164-165): every found
record gets `dhcpServerName`; a failing lookup raises out of the method. -/
def enrichAll (bd : ServerDir) : List LeaseRec → Except TWErr (List LeaseRec)
  | [] => Except.ok []
  | r :: rest =>
    match enrich bd r with
    | Except.error e => Except.error e
    | Except.ok r2 =>
      match enrichAll bd rest with
      | Except.error e => Except.error e
      | Except.ok l => Except.ok (r2 :: l)

/-- Result of one run of `find_dhcp_lease_matching`. -/
structure MatchRun where
  result : Except TWErr (List LeaseRec)
  consumed : Nat
  cancelledAll : Bool

/-- `find_dhcp_lease_matching` (dhcp.py lines 150-167): drains the full
stream (never breaking), collects the records satisfying `matcher` in stream
order, then enriches each collected record; the method never cancels any task
(it discards the task-list yield without keeping it). -/
def find_dhcp_lease_matching (bd : ServerDir) (matcher : LeaseRec → Bool)
    (trs : List TaskResult) : MatchRun :=
  match matchLoop matcher (taskerEvents trs) with
  | (Except.error e, n) => MatchRun.mk (Except.error e) n false
  | (Except.ok found, n) => MatchRun.mk (enrichAll bd found) n false

/-- Python truthiness of the `servers` argument: `None` and the empty list
are both falsy. -/
def serversTruthy : Option (List String) → Bool
  | none => false
  | some l => !l.isEmpty

/-- Server-address selection of `_fetch_dhcp_leases_tasker` (dhcp.py lines
191-195): `[self.dhcp_servers[s_] for s_ in servers] if servers else
self.dhcp_servers.values()` - a falsy `servers` (omitted, None, OR an empty
list) selects every address in the directory; every aggregation and find
method routes its `servers` argument through this selection. -/
def tasker_servers_ip (bd : ServerDir) (servers : Option (List String)) :
    Except TWErr (List String) :=
  if serversTruthy servers then
    (servers.getD []).mapM (fun s =>
      match alookup bd s with
      | none => Except.error TWErr.keyError
      | some a => Except.ok a)
  else Except.ok (bd.map (fun p => p.2))

/-- Python `str.lower`, written over the character list so that it is
evaluable by `decide`. -/
def strToLower (s : String) : String := String.mk (s.data.map Char.toLower)

/-- Python substring containment `needle in hay` over character lists (true
for the empty needle). -/
def charsContains (ns : List Char) : List Char → Bool
  | [] => ns.isEmpty
  | c :: rest => ns.isPrefixOf (c :: rest) || charsContains ns rest

/-- Case-insensitive substring test: models Python
`value.lower() in name.lower()`. -/
def containsCI (hay needle : String) : Bool :=
  charsContains ((strToLower needle).data) ((strToLower hay).data)

/-- The record's `name` field after lower-casing; `none` when the field is
absent or null. -/
def nameLowered (r : LeaseRec) : Option String :=
  match alookup r ("name") with
  | some (some nm) => some (strToLower nm)
  | _ => none

/-- Modelled from the spec: the substring branch of the name-matching
convenience predicate (spec section 4.4) - "case-insensitive substring match
against the `name` field (treats a null/missing name as non-matching, never
an error)".  The repository source under src/ contains no name-matching
convenience search; only the spec describes it. -/
def substringNameMatcher (v : String) : LeaseRec → Bool := fun r =>
  match alookup r ("name") with
  | some (some nm) => containsCI nm v
  | _ => false

/-- Modelled from the spec: the regular-expression branch of the
name-matching convenience predicate (spec section 4.4); the case-insensitive
(IGNORECASE) regex is abstracted as a predicate applied to the lower-cased
name, and a null/missing name never matches. -/
def regexNameMatcher (pat : String → Bool) : LeaseRec → Bool := fun r =>
  match alookup r ("name") with
  | some (some nm) => pat (strToLower nm)
  | _ => false

/-- Modelled from the spec: the name-matching convenience search's argument
handling (spec sections 4.4 and 7) - "Exactly one of substring value or regex
pattern must be supplied per call; supplying neither fails with
`InvalidArgument`".  Missing from src/: no such convenience search exists in
the repository source. -/
def nameMatcherModel (value : Option String) (pat : Option (String → Bool)) :
    Except TWErr (LeaseRec → Bool) :=
  match value, pat with
  | none, none => Except.error TWErr.invalidArgument
  | some v, _ => Except.ok (substringNameMatcher v)
  | none, some p => Except.ok (regexNameMatcher p)

theorem taskerEvents_timeout (trs : List TaskResult) :
    taskerEvents (TaskResult.readTimeout :: trs) = taskerEvents trs := rfl

theorem taskerEvents_benign (res : Response) (trs : List TaskResult)
    (h1 : res.is_error = true) (h2 : strStartsWith res.text ("TIMS-3961") = true) :
    taskerEvents (TaskResult.response res :: trs) = taskerEvents trs := by
  simp [taskerEvents, h1, h2]

theorem taskerEvents_hard (res : Response) (trs : List TaskResult)
    (h1 : res.is_error = true) (h2 : strStartsWith res.text ("TIMS-3961") = false) :
    taskerEvents (TaskResult.response res :: trs) =
      [StreamEvent.err (TWErr.transportError res.status)] := by
  have h1s : is_error_status res.status = true := h1
  simp [taskerEvents, Response.raise_for_status, h1, h2, h1s]

theorem taskerEvents_success (res : Response) (trs : List TaskResult)
    (h1 : res.is_error = false) :
    taskerEvents (TaskResult.response res :: trs) =
      res.rows.map StreamEvent.record ++ taskerEvents trs := by
  have h1s : is_error_status res.status = false := h1
  simp [taskerEvents, Response.raise_for_status, h1, h1s]

theorem collect_map_record_append (rs : List LeaseRec) (evs : List StreamEvent) :
    collectStream (rs.map StreamEvent.record ++ evs) =
      Except.map (fun l => rs ++ l) (collectStream evs) := by
  induction rs with
  | nil =>
    cases h : collectStream evs <;> simp [Except.map, h]
  | cons r rest ih =>
    simp only [List.map_cons, List.cons_append, collectStream, List.append_eq]
    rw [ih]
    cases h : collectStream evs <;> simp [Except.map]

theorem taskerEvents_of_no_hard (trs : List TaskResult)
    (hok : ∀ tr ∈ trs, isHardError tr = false) :
    taskerEvents trs = (streamRecords trs).map StreamEvent.record := by
  induction trs with
  | nil => simp [taskerEvents, streamRecords]
  | cons tr rest ih =>
    have hhd : isHardError tr = false := hok tr (by simp)
    have htl : ∀ tr2 ∈ rest, isHardError tr2 = false := by
      intro tr2 h2; exact hok tr2 (by simp [h2])
    cases tr with
    | readTimeout =>
      simp [taskerEvents_timeout, ih htl, streamRecords, contribution]
    | response res =>
      cases he : res.is_error with
      | false =>
        rw [taskerEvents_success res rest he, ih htl]
        simp [streamRecords, contribution, he]
      | true =>
        have hsw : strStartsWith res.text ("TIMS-3961") = true := by
          simp [isHardError, he] at hhd
          exact hhd
        rw [taskerEvents_benign res rest he hsw, ih htl]
        simp [streamRecords, contribution, he]

theorem fetch_leases_ok_of_no_hard (trs : List TaskResult)
    (hok : ∀ tr ∈ trs, isHardError tr = false) :
    fetch_dhcp_leases trs = Except.ok (streamRecords trs) := by
  rw [fetch_dhcp_leases, taskerEvents_of_no_hard trs hok]
  have hmap : ∀ rs : List LeaseRec,
      collectStream (rs.map StreamEvent.record) = Except.ok rs := by
    intro rs
    have := collect_map_record_append rs []
    simpa [collectStream, Except.map] using this
  exact hmap _

theorem fetch_leases_error_iff (trs : List TaskResult) :
    (∃ e, fetch_dhcp_leases trs = Except.error e) ↔ ∃ tr ∈ trs, isHardError tr = true := by
  induction trs with
  | nil => simp [fetch_dhcp_leases, taskerEvents, collectStream]
  | cons tr rest ih =>
    cases tr with
    | readTimeout =>
      rw [show fetch_dhcp_leases (TaskResult.readTimeout :: rest) = fetch_dhcp_leases rest from rfl]
      simp [isHardError, ih]
    | response res =>
      cases he : res.is_error with
      | false =>
        rw [show fetch_dhcp_leases (TaskResult.response res :: rest)
              = collectStream (taskerEvents (TaskResult.response res :: rest)) from rfl,
            taskerEvents_success res rest he, collect_map_record_append]
        constructor
        · intro hex
          obtain ⟨e, hmape⟩ := hex
          cases hrest : collectStream (taskerEvents rest) with
          | ok l => rw [hrest] at hmape; simp [Except.map] at hmape
          | error e2 =>
            have hre : ∃ e3, fetch_dhcp_leases rest = Except.error e3 := ⟨e2, hrest⟩
            obtain ⟨tr2, htr2, hh⟩ := ih.mp hre
            exact ⟨tr2, by simp [htr2], hh⟩
        · intro hex
          obtain ⟨tr2, htr2, hh⟩ := hex
          have htr2r : tr2 ∈ rest := by
            rcases List.mem_cons.mp htr2 with heq | hmem
            · rw [heq] at hh; simp [isHardError, he] at hh
            · exact hmem
          obtain ⟨e, herr⟩ := ih.mpr ⟨tr2, htr2r, hh⟩
          rw [show fetch_dhcp_leases rest = collectStream (taskerEvents rest) from rfl] at herr
          exact ⟨e, by rw [herr]; simp [Except.map]⟩
      | true =>
        cases hsw : strStartsWith res.text ("TIMS-3961") with
        | true =>
          rw [show fetch_dhcp_leases (TaskResult.response res :: rest)
                = collectStream (taskerEvents (TaskResult.response res :: rest)) from rfl,
              taskerEvents_benign res rest he hsw]
          rw [show collectStream (taskerEvents rest) = fetch_dhcp_leases rest from rfl]
          rw [ih]
          constructor
          · intro hex
            obtain ⟨tr2, htr2, hh⟩ := hex
            exact ⟨tr2, by simp [htr2], hh⟩
          · intro hex
            obtain ⟨tr2, htr2, hh⟩ := hex
            rcases List.mem_cons.mp htr2 with heq | hmem
            · rw [heq] at hh; simp [isHardError, he, hsw] at hh
            · exact ⟨tr2, hmem, hh⟩
        | false =>
          rw [show fetch_dhcp_leases (TaskResult.response res :: rest)
                = collectStream (taskerEvents (TaskResult.response res :: rest)) from rfl,
              taskerEvents_hard res rest he hsw]
          constructor
          · intro _
            exact ⟨TaskResult.response res, by simp, by simp [isHardError, he, hsw]⟩
          · intro _
            exact ⟨TWErr.transportError res.status, by simp [collectStream]⟩

/-- C1: during the drain, a task that raised a request timeout, or whose
response is an error status with a `TIMS-3961`-prefixed body, contributes zero
records and the drain continues with the remaining tasks; a task whose
response is any other error status aborts the whole drain by raising a
`TransportError`; and for every completion-order task list, the aggregated
stream raises if and only if some task returned an error-status response whose
body does not start with `TIMS-3961`. -/
theorem C1_drain_failure_policy :
    (∀ trs, fetch_dhcp_leases (TaskResult.readTimeout :: trs) = fetch_dhcp_leases trs) ∧
    (∀ res trs, res.is_error = true → strStartsWith res.text ("TIMS-3961") = true →
      fetch_dhcp_leases (TaskResult.response res :: trs) = fetch_dhcp_leases trs) ∧
    (∀ res trs, res.is_error = true → strStartsWith res.text ("TIMS-3961") = false →
      fetch_dhcp_leases (TaskResult.response res :: trs) =
        Except.error (TWErr.transportError res.status)) ∧
    (∀ trs, (∃ e, fetch_dhcp_leases trs = Except.error e) ↔
      ∃ tr ∈ trs, isHardError tr = true) := by
  refine ⟨fun trs => rfl, ?_, ?_, fetch_leases_error_iff⟩
  · intro res trs h1 h2
    rw [show fetch_dhcp_leases (TaskResult.response res :: trs)
          = collectStream (taskerEvents (TaskResult.response res :: trs)) from rfl,
        taskerEvents_benign res trs h1 h2]
    rfl
  · intro res trs h1 h2
    rw [show fetch_dhcp_leases (TaskResult.response res :: trs)
          = collectStream (taskerEvents (TaskResult.response res :: trs)) from rfl,
        taskerEvents_hard res trs h1 h2]
    simp [collectStream]

/-- Witness for C1: a concrete `TIMS-3961` 503 is skipped ahead of a
successful server, and a concrete plain 500 aborts the drain with a
`TransportError`. -/
theorem C1_drain_failure_policy_witness :
    fetch_dhcp_leases
        [TaskResult.response (Response.mk 503 ("TIMS-3961 server offline") []),
         TaskResult.response (Response.mk 200 ("") [[(("address", some ("10.1.1.5")))]])] =
      fetch_dhcp_leases
        [TaskResult.response (Response.mk 200 ("") [[(("address", some ("10.1.1.5")))]])] ∧
    fetch_dhcp_leases [TaskResult.response (Response.mk 500 ("boom") [])] =
      Except.error (TWErr.transportError 500) := by
  refine ⟨C1_drain_failure_policy.2.1 _ _ (by decide) (by decide),
          C1_drain_failure_policy.2.2.1 _ _ (by decide) (by decide)⟩

/-- C7: for a non-empty completion-order task list in which no task aborts the
drain, the aggregated stream yields exactly the concatenation, in completion
order, of each successfully responding server's rows (so each server's own
response order is preserved inside its contribution), and the total record
count is the sum over the tasks of their contributed row counts. -/
theorem C7_aggregate_record_count (trs : List TaskResult) (_hne : trs ≠ [])
    (hok : ∀ tr ∈ trs, isHardError tr = false) :
    fetch_dhcp_leases trs = Except.ok (streamRecords trs) ∧
    (streamRecords trs).length = (trs.map (fun tr => (contribution tr).length)).sum := by
  refine ⟨fetch_leases_ok_of_no_hard trs hok, ?_⟩
  rw [streamRecords, List.length_flatten, List.map_map]
  rfl

/-- Witness for C7: two servers, one answering two rows and one answering one
row, with a timing-out server interleaved; the stream has all three records in
completion order and the count is the sum 2 + 0 + 1. -/
theorem C7_aggregate_record_count_witness :
    fetch_dhcp_leases
        [TaskResult.response (Response.mk 200 ("")
           [[(("address", some ("10.1.1.5")))], [(("address", some ("10.1.1.6")))]]),
         TaskResult.readTimeout,
         TaskResult.response (Response.mk 200 ("") [[(("address", some ("10.1.1.7")))]])] =
      Except.ok
        [[(("address", some ("10.1.1.5")))], [(("address", some ("10.1.1.6")))],
         [(("address", some ("10.1.1.7")))]] ∧
    (streamRecords
        [TaskResult.response (Response.mk 200 ("")
           [[(("address", some ("10.1.1.5")))], [(("address", some ("10.1.1.6")))]]),
         TaskResult.readTimeout,
         TaskResult.response (Response.mk 200 ("") [[(("address", some ("10.1.1.7")))]])]).length
      = 3 := by
  have h := C7_aggregate_record_count
    [TaskResult.response (Response.mk 200 ("")
       [[(("address", some ("10.1.1.5")))], [(("address", some ("10.1.1.6")))]]),
     TaskResult.readTimeout,
     TaskResult.response (Response.mk 200 ("") [[(("address", some ("10.1.1.7")))]])]
    (by decide) (by decide)
  refine ⟨?_, ?_⟩
  · rw [h.1]; rfl
  · rw [h.2]; rfl

theorem alookup_eq_none {α : Type} (d : List (String × α)) (k : String) :
    alookup d k = none ↔ k ∉ d.map (fun p => p.1) := by
  induction d with
  | nil => simp [alookup]
  | cons p rest ih =>
    by_cases h : p.1 = k
    · simp [alookup, h]
    · have h2 : ¬(k = p.1) := fun heq => h heq.symm
      simp [alookup, h, h2, ih]

theorem alookup_of_mem_nodup {α : Type} (d : List (String × α)) (k : String) (v : α)
    (hnd : (d.map (fun p => p.1)).Nodup) (hmem : (k, v) ∈ d) :
    alookup d k = some v := by
  induction d with
  | nil => simp at hmem
  | cons p rest ih =>
    rw [List.map_cons, List.nodup_cons] at hnd
    rcases List.mem_cons.mp hmem with heq | hmem2
    · rw [← heq]; simp [alookup]
    · have hk : p.1 ≠ k := by
        intro hkk
        exact hnd.1 (hkk ▸ List.mem_map.mpr ⟨(k, v), hmem2, rfl⟩)
      simp only [alookup, hk, if_false]
      exact ih hnd.2 hmem2

theorem resolveName_of_mem_nodup (bd : ServerDir) (k v : String)
    (hnd : (bd.map (fun p => p.2)).Nodup) (hmem : (k, v) ∈ bd) :
    resolveName bd v = some k := by
  induction bd with
  | nil => simp at hmem
  | cons p rest ih =>
    rw [List.map_cons, List.nodup_cons] at hnd
    rcases List.mem_cons.mp hmem with heq | hmem2
    · rw [← heq]
      simp [resolveName, List.find?_cons]
    · have hv : p.2 ≠ v := by
        intro hvv
        exact hnd.1 (hvv ▸ List.mem_map.mpr ⟨(k, v), hmem2, rfl⟩)
      have hb : (p.2 == v) = false := beq_eq_false_iff_ne.mpr hv
      have ihr := ih hnd.2 hmem2
      simp only [resolveName, List.find?_cons, hb] at ihr ⊢
      exact ihr

theorem resolveName_eq_none (bd : ServerDir) (v : String)
    (hv : v ∉ bd.map (fun p => p.2)) : resolveName bd v = none := by
  induction bd with
  | nil => simp [resolveName]
  | cons p rest ih =>
    simp only [List.map_cons, List.mem_cons] at hv
    push_neg at hv
    have hb : (p.2 == v) = false := beq_eq_false_iff_ne.mpr (fun h => hv.1 h.symm)
    have ihr := ih hv.2
    simp only [resolveName, List.find?_cons, hb] at ihr ⊢
    exact ihr

theorem dictInsert_keys_nodup (acc : List (String × String)) (k v : String)
    (h : (acc.map (fun p => p.1)).Nodup) :
    ((dictInsert acc k v).map (fun p => p.1)).Nodup := by
  unfold dictInsert
  by_cases hs : (alookup acc k).isSome = true
  · rw [if_pos hs, List.map_map]
    have heq : acc.map ((fun p => p.1) ∘ fun p => if p.1 == k then (k, v) else p)
        = acc.map (fun p => p.1) := by
      apply List.map_congr_left
      intro a _
      by_cases hk : a.1 == k
      · simp only [Function.comp, hk, if_true]
        exact (beq_iff_eq.mp hk).symm
      · simp [Function.comp, hk]
    rw [heq]; exact h
  · rw [if_neg hs]
    have hn : alookup acc k = none := by
      cases hl : alookup acc k
      · rfl
      · rw [hl] at hs; simp at hs
    have hk : k ∉ acc.map (fun p => p.1) := (alookup_eq_none acc k).mp hn
    rw [List.map_append]
    simp [List.nodup_append, h, hk]

theorem dictFold_keys_nodup (body : List SrvRec) :
    ∀ acc : List (String × String), (acc.map (fun p => p.1)).Nodup →
      ((body.foldl (fun a r => dictInsert a r.name r.v4_ipaddress) acc).map
        (fun p => p.1)).Nodup := by
  induction body with
  | nil => intro acc h; simpa using h
  | cons r rest ih =>
    intro acc h
    simp only [List.foldl_cons]
    exact ih _ (dictInsert_keys_nodup acc r.name r.v4_ipaddress h)

theorem dictOfBody_keys_nodup (body : List SrvRec) :
    ((dictOfBody body).map (fun p => p.1)).Nodup :=
  dictFold_keys_nodup body [] (by simp)

theorem mem_dictInsert (acc : List (String × String)) (k v : String)
    (q : String × String) (hq : q ∈ dictInsert acc k v) :
    q ∈ acc ∨ q = (k, v) := by
  unfold dictInsert at hq
  by_cases hs : (alookup acc k).isSome = true
  · rw [if_pos hs] at hq
    obtain ⟨a, ha, hfa⟩ := List.mem_map.mp hq
    by_cases hk : a.1 == k
    · right; rw [← hfa]; simp [hk]
    · left; rw [← hfa]; simp only [hk]; simpa using ha
  · rw [if_neg hs] at hq
    rcases List.mem_append.mp hq with h1 | h2
    · left; exact h1
    · right; simpa using h2

theorem dictFold_mem (body : List SrvRec) :
    ∀ (acc : List (String × String)) (Q : String × String → Prop),
      (∀ q ∈ acc, Q q) →
      (∀ r ∈ body, Q (r.name, r.v4_ipaddress)) →
      ∀ q ∈ body.foldl (fun a r => dictInsert a r.name r.v4_ipaddress) acc, Q q := by
  induction body with
  | nil => intro acc Q hacc _ q hq; exact hacc q hq
  | cons r rest ih =>
    intro acc Q hacc hbody q hq
    simp only [List.foldl_cons] at hq
    refine ih _ Q ?_ (fun r2 h2 => hbody r2 (by simp [h2])) q hq
    intro q2 hq2
    rcases mem_dictInsert acc r.name r.v4_ipaddress q2 hq2 with h1 | h2
    · exact hacc q2 h1
    · rw [h2]; exact hbody r (by simp)

theorem dictOfBody_mem (body : List SrvRec) (q : String × String)
    (hq : q ∈ dictOfBody body) :
    ∃ r ∈ body, q.1 = r.name ∧ q.2 = r.v4_ipaddress := by
  refine dictFold_mem body [] (fun q2 => ∃ r ∈ body, q2.1 = r.name ∧ q2.2 = r.v4_ipaddress)
    (by simp) ?_ q hq
  intro r hr
  exact ⟨r, hr, rfl, rfl⟩

theorem bidictPut_fresh (bd : ServerDir) (k v : String)
    (hk : k ∉ bd.map (fun p => p.1)) (hv : v ∉ bd.map (fun p => p.2)) :
    bidictPut bd k v = Except.ok (bd ++ [(k, v)]) := by
  unfold bidictPut
  have hany : bd.any (fun p => p.2 == v && p.1 != k) = false := by
    rw [List.any_eq_false]
    intro p hp
    have hpv : p.2 ≠ v := fun h => hv (List.mem_map.mpr ⟨p, hp, h⟩)
    simp [hpv]
  rw [hany]
  have hfilter : bd.filter (fun p => p.1 != k) = bd := by
    rw [List.filter_eq_self]
    intro p hp
    have hpk : p.1 ≠ k := fun h => hk (List.mem_map.mpr ⟨p, hp, h⟩)
    simp [hpk]
  simp [hfilter]

theorem bidictUpdate_ok (d : List (String × String)) :
    ∀ bd : ServerDir,
      ((bd ++ d).map (fun p => p.1)).Nodup →
      ((bd ++ d).map (fun p => p.2)).Nodup →
      bidictUpdate bd d = Except.ok (bd ++ d) := by
  induction d with
  | nil => intro bd _ _; simp [bidictUpdate]
  | cons p rest ih =>
    intro bd hk hv
    have hk2 := hk; have hv2 := hv
    rw [List.map_append, List.nodup_append] at hk2 hv2
    have hkfresh : p.1 ∉ bd.map (fun q => q.1) := by
      intro hmem; exact hk2.2.2 hmem (by simp)
    have hvfresh : p.2 ∉ bd.map (fun q => q.2) := by
      intro hmem; exact hv2.2.2 hmem (by simp)
    have hassoc : (bd ++ [(p.1, p.2)]) ++ rest = bd ++ p :: rest := by simp
    have hknd : (((bd ++ [(p.1, p.2)]) ++ rest).map (fun q => q.1)).Nodup := by
      rw [hassoc]; exact hk
    have hvnd : (((bd ++ [(p.1, p.2)]) ++ rest).map (fun q => q.2)).Nodup := by
      rw [hassoc]; exact hv
    have hrec := ih (bd ++ [(p.1, p.2)]) hknd hvnd
    simp only [bidictUpdate, bidictPut_fresh bd p.1 p.2 hkfresh hvfresh]
    rw [hrec, hassoc]

theorem bidictUpdate_ok_inv (d : List (String × String)) :
    ∀ bd bd2 : ServerDir,
      ((bd ++ d).map (fun p => p.1)).Nodup →
      (bd.map (fun p => p.2)).Nodup →
      bidictUpdate bd d = Except.ok bd2 →
      bd2 = bd ++ d ∧ ((bd ++ d).map (fun p => p.2)).Nodup := by
  induction d with
  | nil =>
    intro bd bd2 hk hv h
    simp only [bidictUpdate] at h
    have hb : bd = bd2 := Except.ok.inj h
    constructor
    · rw [← hb]; simp
    · simpa using hv
  | cons p rest ih =>
    intro bd bd2 hk hv h
    have hkfresh : p.1 ∉ bd.map (fun q => q.1) := by
      rw [List.map_append, List.nodup_append] at hk
      intro hmem; exact hk.2.2 hmem (by simp)
    cases hput : bidictPut bd p.1 p.2 with
    | error e =>
      simp only [bidictUpdate, hput] at h
      exact Except.noConfusion h
    | ok bd1 =>
      have hvfresh : p.2 ∉ bd.map (fun q => q.2) := by
        intro hmem
        obtain ⟨q, hq, hq2⟩ := List.mem_map.mp hmem
        have hq1 : q.1 ≠ p.1 := fun h1 => hkfresh (List.mem_map.mpr ⟨q, hq, h1⟩)
        have hany : bd.any (fun r => r.2 == p.2 && r.1 != p.1) = true :=
          List.any_eq_true.mpr ⟨q, hq, by simp [hq2, hq1]⟩
        rw [bidictPut, if_pos hany] at hput
        cases hput
      have hput2 : bidictPut bd p.1 p.2 = Except.ok (bd ++ [(p.1, p.2)]) :=
        bidictPut_fresh bd p.1 p.2 hkfresh hvfresh
      rw [hput] at hput2
      have hbd1 : bd1 = bd ++ [(p.1, p.2)] := Except.ok.inj hput2
      simp only [bidictUpdate, hput] at h
      rw [hbd1] at h
      have hassoc : (bd ++ [(p.1, p.2)]) ++ rest = bd ++ p :: rest := by simp
      have hknd : (((bd ++ [(p.1, p.2)]) ++ rest).map (fun q => q.1)).Nodup := by
        rw [hassoc]; exact hk
      have hvnd : ((bd ++ [(p.1, p.2)]).map (fun q => q.2)).Nodup := by
        rw [List.map_append]
        simp [List.nodup_append, hv, hvfresh]
      have hrec := ih (bd ++ [(p.1, p.2)]) bd2 hknd hvnd h
      rw [hassoc] at hrec
      exact hrec

theorem bidictUpdate_error_val (d : List (String × String)) :
    ∀ (bd : ServerDir) (e : TWErr), bidictUpdate bd d = Except.error e →
      e = TWErr.valueDuplicationError := by
  induction d with
  | nil => intro bd e h; simp [bidictUpdate] at h
  | cons p rest ih =>
    intro bd e h
    cases hput : bidictPut bd p.1 p.2 with
    | error e2 =>
      simp only [bidictUpdate, hput] at h
      have he2 : e2 = e := Except.error.inj h
      rw [← he2]
      unfold bidictPut at hput
      by_cases hc : bd.any (fun p2 => p2.2 == p.2 && p2.1 != p.1) = true
      · rw [if_pos hc] at hput
        exact (Except.error.inj hput).symm
      · rw [if_neg hc] at hput
        cases hput
    | ok bd1 =>
      simp only [bidictUpdate, hput] at h
      exact ih bd1 e h

theorem fetch_dhcp_servers_ok (st : ServerDir) (res : ListResponse)
    (body : List SrvRec) (bd : ServerDir)
    (h : fetch_dhcp_servers st res = (Except.ok body, bd)) :
    body = res.body ∧ bidictUpdate [] (dictOfBody res.body) = Except.ok bd := by
  unfold fetch_dhcp_servers ListResponse.raise_for_status at h
  by_cases hs : is_error_status res.status = true
  · rw [if_pos hs] at h
    simp at h
  · rw [if_neg hs] at h
    cases hup : bidictUpdate [] (dictOfBody res.body) with
    | error e => rw [hup] at h; simp at h
    | ok bd1 =>
      rw [hup] at h
      simp only [Prod.mk.injEq] at h
      obtain ⟨h1, h2⟩ := h
      have hb : body = res.body := (Except.ok.inj h1).symm
      exact ⟨hb, by rw [h2]⟩

/-- Counterexample to C3 as stated: with a non-empty directory and a
successful refresh response containing two servers that share one address,
`fetch_dhcp_servers` clears the directory, the bidict update then raises
`ValueDuplicationError`, and the directory is left EMPTY - neither the
complete old map nor the complete new map, although the claim says a failing
refresh never leaves the directory emptied. -/
theorem C3_refresh_atomicity_counterexample :
    (fetch_dhcp_servers [(("core1", "9.9.9.9"))]
        (ListResponse.mk 200 [SrvRec.mk ("a") ("1.1.1.1"), SrvRec.mk ("b") ("1.1.1.1")])).2
      = [] ∧
    (fetch_dhcp_servers [(("core1", "9.9.9.9"))]
        (ListResponse.mk 200 [SrvRec.mk ("a") ("1.1.1.1"), SrvRec.mk ("b") ("1.1.1.1")])).1
      = Except.error TWErr.valueDuplicationError ∧
    ([(("core1", "9.9.9.9"))] : ServerDir) ≠ [] ∧
    dictOfBody [SrvRec.mk ("a") ("1.1.1.1"), SrvRec.mk ("b") ("1.1.1.1")] ≠ [] := by
  exact ⟨rfl, rfl, by decide, by decide⟩

/-- C3 amended: `fetch_dhcp_servers` replaces the directory in one synchronous
step (the model's single pure transition; the code has no `await` between
`clear()` and `update(...)`, so concurrent observers see only the directory
before or after the call, never a partially-updated map).  The post-call
directory is exactly one of: the old map unchanged, when the request itself
failed; the complete new map, when the response's name-to-address dict has no
duplicate address; or - unlike the original claim - the EMPTY map, when the
response contains a duplicate address, because `clear()` has already run when
the bidict update raises `ValueDuplicationError`. -/
theorem C3_refresh_replacement (st : ServerDir) (res : ListResponse) :
    (is_error_status res.status = true →
      fetch_dhcp_servers st res = (Except.error (TWErr.transportError res.status), st)) ∧
    (is_error_status res.status = false →
      ((dictOfBody res.body).map (fun p => p.2)).Nodup →
      fetch_dhcp_servers st res = (Except.ok res.body, dictOfBody res.body)) ∧
    (is_error_status res.status = false →
      ¬((dictOfBody res.body).map (fun p => p.2)).Nodup →
      fetch_dhcp_servers st res = (Except.error TWErr.valueDuplicationError, [])) := by
  refine ⟨?_, ?_, ?_⟩
  · intro hs
    unfold fetch_dhcp_servers ListResponse.raise_for_status
    rw [if_pos hs]
  · intro hs hnd
    have hup := bidictUpdate_ok (dictOfBody res.body) []
      (by simpa using dictOfBody_keys_nodup res.body) (by simpa using hnd)
    unfold fetch_dhcp_servers ListResponse.raise_for_status
    rw [if_neg (by simp [hs]), hup]
    simp
  · intro hs hnd
    unfold fetch_dhcp_servers ListResponse.raise_for_status
    rw [if_neg (by simp [hs])]
    cases hup : bidictUpdate [] (dictOfBody res.body) with
    | ok bd2 =>
      have hinv := bidictUpdate_ok_inv (dictOfBody res.body) [] bd2
        (by simpa using dictOfBody_keys_nodup res.body) (by simp) hup
      exact absurd (by simpa using hinv.2) hnd
    | error e =>
      have he := bidictUpdate_error_val (dictOfBody res.body) [] e hup
      rw [he]

/-- Witness for the amended C3: an HTTP 500 keeps the old map; a clean
two-server response installs exactly the new map; a duplicate-address
response raises and leaves the directory empty. -/
theorem C3_refresh_replacement_witness :
    fetch_dhcp_servers [(("core1", "9.9.9.9"))] (ListResponse.mk 500 []) =
      (Except.error (TWErr.transportError 500), [(("core1", "9.9.9.9"))]) ∧
    fetch_dhcp_servers [(("core1", "9.9.9.9"))]
        (ListResponse.mk 200 [SrvRec.mk ("a") ("1.1.1.1"), SrvRec.mk ("b") ("2.2.2.2")]) =
      (Except.ok [SrvRec.mk ("a") ("1.1.1.1"), SrvRec.mk ("b") ("2.2.2.2")],
        [(("a", "1.1.1.1")), (("b", "2.2.2.2"))]) ∧
    fetch_dhcp_servers [(("core1", "9.9.9.9"))]
        (ListResponse.mk 200 [SrvRec.mk ("a") ("3.3.3.3"), SrvRec.mk ("b") ("3.3.3.3")]) =
      (Except.error TWErr.valueDuplicationError, []) := by
  refine ⟨(C3_refresh_replacement _ _).1 (by decide), ?_,
          (C3_refresh_replacement _ _).2.2 (by decide) (by decide)⟩
  have h := (C3_refresh_replacement [(("core1", "9.9.9.9"))]
      (ListResponse.mk 200 [SrvRec.mk ("a") ("1.1.1.1"), SrvRec.mk ("b") ("2.2.2.2")])).2.1
      (by decide) (by decide)
  rw [h]
  rfl

/-- C4: after any refresh call that returns normally, the directory is a
bijection - for every entry, name resolves to address and back and address
resolves to name and back - and every name or address absent from the
refresh response fails lookup (the model's `none`, the raised
`KeyError`/`NotFoundError`). -/
theorem C4_directory_bijection (st : ServerDir) (res : ListResponse)
    (body : List SrvRec) (bd : ServerDir)
    (h : fetch_dhcp_servers st res = (Except.ok body, bd)) :
    (∀ p ∈ bd, resolveAddress bd p.1 = some p.2 ∧ resolveName bd p.2 = some p.1) ∧
    (∀ n, n ∉ body.map SrvRec.name → resolveAddress bd n = none) ∧
    (∀ a, a ∉ body.map SrvRec.v4_ipaddress → resolveName bd a = none) := by
  obtain ⟨hbody, hup⟩ := fetch_dhcp_servers_ok st res body bd h
  have hknd : ((dictOfBody res.body).map (fun p => p.1)).Nodup :=
    dictOfBody_keys_nodup res.body
  have hinv := bidictUpdate_ok_inv (dictOfBody res.body) [] bd
    (by simpa using hknd) (by simp) hup
  have hbd : bd = dictOfBody res.body := by simpa using hinv.1
  have hvnd : (bd.map (fun p => p.2)).Nodup := by
    rw [hbd]; simpa using hinv.2
  have hknd2 : (bd.map (fun p => p.1)).Nodup := by rw [hbd]; exact hknd
  refine ⟨?_, ?_, ?_⟩
  · intro p hp
    exact ⟨alookup_of_mem_nodup bd p.1 p.2 hknd2 (by simpa using hp),
           resolveName_of_mem_nodup bd p.1 p.2 hvnd (by simpa using hp)⟩
  · intro n hn
    have hnk : n ∉ bd.map (fun p => p.1) := by
      intro hmem
      obtain ⟨q, hq, hq1⟩ := List.mem_map.mp hmem
      obtain ⟨r, hr, hrn, _⟩ := dictOfBody_mem res.body q (by rw [← hbd]; exact hq)
      refine hn (List.mem_map.mpr ⟨r, ?_, ?_⟩)
      · rw [hbody]; exact hr
      · rw [← hrn, hq1]
    exact (alookup_eq_none bd n).mpr hnk
  · intro a ha
    apply resolveName_eq_none
    intro hmem
    obtain ⟨q, hq, hq2⟩ := List.mem_map.mp hmem
    obtain ⟨r, hr, _, hrv⟩ := dictOfBody_mem res.body q (by rw [← hbd]; exact hq)
    refine ha (List.mem_map.mpr ⟨r, ?_, ?_⟩)
    · rw [hbody]; exact hr
    · rw [← hrv, hq2]

/-- Witness for C4: a concrete two-server refresh; both round trips hold on
an entry and lookups of an absent name and an absent address fail. -/
theorem C4_directory_bijection_witness :
    resolveAddress [(("core1", "10.0.0.1")), (("core2", "10.0.0.2"))] ("core1")
        = some ("10.0.0.1") ∧
    resolveName [(("core1", "10.0.0.1")), (("core2", "10.0.0.2"))] ("10.0.0.1")
        = some ("core1") ∧
    resolveAddress [(("core1", "10.0.0.1")), (("core2", "10.0.0.2"))] ("core9") = none ∧
    resolveName [(("core1", "10.0.0.1")), (("core2", "10.0.0.2"))] ("10.9.9.9") = none := by
  have h := C4_directory_bijection []
    (ListResponse.mk 200 [SrvRec.mk ("core1") ("10.0.0.1"), SrvRec.mk ("core2") ("10.0.0.2")])
    [SrvRec.mk ("core1") ("10.0.0.1"), SrvRec.mk ("core2") ("10.0.0.2")]
    [(("core1", "10.0.0.1")), (("core2", "10.0.0.2"))] rfl
  have h1 := h.1 (("core1", "10.0.0.1")) (by decide)
  exact ⟨h1.1, h1.2, h.2.1 ("core9") (by decide), h.2.2 ("10.9.9.9") (by decide)⟩

theorem findLoopBy_no_match (bd : ServerDir) (field target : String)
    (recs : List LeaseRec)
    (hf : ∀ r ∈ recs, (alookup r field).isSome = true)
    (hnm : firstMatchBy field target recs = none) :
    findLoopBy bd field target (recs.map StreamEvent.record) =
      FindRun.mk (Except.ok none) recs.length false := by
  induction recs with
  | nil => simp [findLoopBy]
  | cons r rest ih =>
    have hr := hf r (by simp)
    cases hv : alookup r field with
    | none => rw [hv] at hr; simp at hr
    | some v =>
      simp only [firstMatchBy, hv] at hnm
      by_cases ht : v = some target
      · rw [if_pos ht] at hnm; cases hnm
      · rw [if_neg ht] at hnm
        simp only [List.map_cons, findLoopBy, hv, if_neg ht]
        rw [ih (fun r2 h2 => hf r2 (by simp [h2])) hnm]
        simp

theorem findLoopBy_match (bd : ServerDir) (field target : String)
    (recs : List LeaseRec) (rm : LeaseRec)
    (hf : ∀ r ∈ recs, (alookup r field).isSome = true)
    (hm : firstMatchBy field target recs = some rm) :
    (findLoopBy bd field target (recs.map StreamEvent.record)).result =
      Except.map Option.some (enrich bd rm) ∧
    (findLoopBy bd field target (recs.map StreamEvent.record)).cancelledAll = true := by
  induction recs with
  | nil => simp [firstMatchBy] at hm
  | cons r rest ih =>
    have hr := hf r (by simp)
    cases hv : alookup r field with
    | none => rw [hv] at hr; simp at hr
    | some v =>
      simp only [firstMatchBy, hv] at hm
      by_cases ht : v = some target
      · rw [if_pos ht] at hm
        have hrm : r = rm := Option.some.inj hm
        subst hrm
        simp only [List.map_cons, findLoopBy, hv, if_pos ht]
        cases he : enrich bd r <;> simp [Except.map, he]
      · rw [if_neg ht] at hm
        simp only [List.map_cons, findLoopBy, hv, if_neg ht]
        exact ih (fun r2 h2 => hf r2 (by simp [h2])) hm

/-- C2: when no task aborts the drain, every streamed record carries an
`address` field, some record's `address` equals the query, and the first such
record's `dhcpServer` address resolves in the directory, then
`find_dhcp_lease_ipaddr` returns exactly that first record (in completion
order) with a `dhcpServerName` field set to the resolved directory name, and
the cancel-all loop over the whole fetch-task set has run before the record
is returned (the model sets `cancelledAll` on the break path before
enrichment, as the code cancels before it enriches). -/
theorem C2_find_first_ipaddr (bd : ServerDir) (ipaddr : String)
    (trs : List TaskResult) (rm : LeaseRec) (addr nm : String)
    (hok : ∀ tr ∈ trs, isHardError tr = false)
    (hf : ∀ r ∈ streamRecords trs, (alookup r ("address")).isSome = true)
    (hm : firstMatchBy ("address") ipaddr (streamRecords trs) = some rm)
    (hds : alookup rm ("dhcpServer") = some (some addr))
    (hnm : resolveName bd addr = some nm) :
    (find_dhcp_lease_ipaddr bd ipaddr trs).result =
      Except.ok (some (recSet rm ("dhcpServerName") (some nm))) ∧
    (find_dhcp_lease_ipaddr bd ipaddr trs).cancelledAll = true := by
  have hev : taskerEvents trs = (streamRecords trs).map StreamEvent.record :=
    taskerEvents_of_no_hard trs hok
  have hloop := findLoopBy_match bd ("address") ipaddr (streamRecords trs) rm hf hm
  have henrich : enrich bd rm = Except.ok (recSet rm ("dhcpServerName") (some nm)) := by
    simp [enrich, hds, hnm]
  rw [henrich] at hloop
  rw [find_dhcp_lease_ipaddr, hev]
  exact ⟨by rw [hloop.1]; rfl, hloop.2⟩

/-- Witness for C2: one server with one matching record; the record comes
back enriched with `dhcpServerName = core1` and the tasks were cancelled. -/
theorem C2_find_first_ipaddr_witness :
    (find_dhcp_lease_ipaddr [(("core1", "10.0.0.1"))] ("10.1.1.5")
        [TaskResult.response (Response.mk 200 ("")
          [[(("address", some ("10.1.1.5"))), (("dhcpServer", some ("10.0.0.1")))]])]).result
      = Except.ok (some (recSet
          [(("address", some ("10.1.1.5"))), (("dhcpServer", some ("10.0.0.1")))]
          ("dhcpServerName") (some ("core1")))) ∧
    (find_dhcp_lease_ipaddr [(("core1", "10.0.0.1"))] ("10.1.1.5")
        [TaskResult.response (Response.mk 200 ("")
          [[(("address", some ("10.1.1.5"))), (("dhcpServer", some ("10.0.0.1")))]])]).cancelledAll
      = true :=
  C2_find_first_ipaddr [(("core1", "10.0.0.1"))] ("10.1.1.5")
    [TaskResult.response (Response.mk 200 ("")
      [[(("address", some ("10.1.1.5"))), (("dhcpServer", some ("10.0.0.1")))]])]
    [(("address", some ("10.1.1.5"))), (("dhcpServer", some ("10.0.0.1")))]
    ("10.0.0.1") ("core1")
    (by decide) (by decide) (by decide) (by decide) (by decide)

/-- C6: when no task aborts the drain, every streamed record carries an
`address` field, and no record's `address` equals the query, then
`find_dhcp_lease_ipaddr` returns `None`, it has consumed the entire stream
(every fetch task drained to exhaustion before returning NotFound), and the
cancel-all loop never ran. -/
theorem C6_find_first_ipaddr_no_match (bd : ServerDir) (ipaddr : String)
    (trs : List TaskResult)
    (hok : ∀ tr ∈ trs, isHardError tr = false)
    (hf : ∀ r ∈ streamRecords trs, (alookup r ("address")).isSome = true)
    (hnm : firstMatchBy ("address") ipaddr (streamRecords trs) = none) :
    (find_dhcp_lease_ipaddr bd ipaddr trs).result = Except.ok none ∧
    (find_dhcp_lease_ipaddr bd ipaddr trs).consumed = (taskerEvents trs).length ∧
    (find_dhcp_lease_ipaddr bd ipaddr trs).cancelledAll = false := by
  have hev : taskerEvents trs = (streamRecords trs).map StreamEvent.record :=
    taskerEvents_of_no_hard trs hok
  rw [find_dhcp_lease_ipaddr, hev,
      findLoopBy_no_match bd ("address") ipaddr (streamRecords trs) hf hnm]
  refine ⟨rfl, ?_, rfl⟩
  simp

/-- Witness for C6: two responding servers, no record matching the queried
address; the result is `None` with both stream events consumed and no
cancellation. -/
theorem C6_find_first_ipaddr_no_match_witness :
    (find_dhcp_lease_ipaddr [(("core1", "10.0.0.1"))] ("10.9.9.9")
        [TaskResult.response (Response.mk 200 ("")
          [[(("address", some ("10.1.1.5"))), (("dhcpServer", some ("10.0.0.1")))]]),
         TaskResult.response (Response.mk 200 ("")
          [[(("address", some ("10.1.1.6"))), (("dhcpServer", some ("10.0.0.1")))]])]).result
      = Except.ok none ∧
    (find_dhcp_lease_ipaddr [(("core1", "10.0.0.1"))] ("10.9.9.9")
        [TaskResult.response (Response.mk 200 ("")
          [[(("address", some ("10.1.1.5"))), (("dhcpServer", some ("10.0.0.1")))]]),
         TaskResult.response (Response.mk 200 ("")
          [[(("address", some ("10.1.1.6"))), (("dhcpServer", some ("10.0.0.1")))]])]).consumed
      = 2 ∧
    (find_dhcp_lease_ipaddr [(("core1", "10.0.0.1"))] ("10.9.9.9")
        [TaskResult.response (Response.mk 200 ("")
          [[(("address", some ("10.1.1.5"))), (("dhcpServer", some ("10.0.0.1")))]]),
         TaskResult.response (Response.mk 200 ("")
          [[(("address", some ("10.1.1.6"))), (("dhcpServer", some ("10.0.0.1")))]])]).cancelledAll
      = false := by
  have h := C6_find_first_ipaddr_no_match [(("core1", "10.0.0.1"))] ("10.9.9.9")
    [TaskResult.response (Response.mk 200 ("")
      [[(("address", some ("10.1.1.5"))), (("dhcpServer", some ("10.0.0.1")))]]),
     TaskResult.response (Response.mk 200 ("")
      [[(("address", some ("10.1.1.6"))), (("dhcpServer", some ("10.0.0.1")))]])]
    (by decide) (by decide) (by decide)
  exact ⟨h.1, by rw [h.2.1]; rfl, h.2.2⟩

/-- C9: `find_dhcp_lease_macaddr` matches a record exactly when its `mac`
field is string-equal to the queried MAC (the `firstMatchBy` comparison is
plain string equality - case-sensitive, no separator or case normalisation):
when no task aborts the drain and every record carries a `mac` field, the
method returns `None` whenever no record's `mac` is exactly equal to the
query (in particular when the stored form differs only in letter case), and
returns the enriched first exactly-equal record otherwise. -/
theorem C9_find_first_mac_exact (bd : ServerDir) (macaddr : String)
    (trs : List TaskResult)
    (hok : ∀ tr ∈ trs, isHardError tr = false)
    (hf : ∀ r ∈ streamRecords trs, (alookup r ("mac")).isSome = true) :
    (firstMatchBy ("mac") macaddr (streamRecords trs) = none →
      (find_dhcp_lease_macaddr bd macaddr trs).result = Except.ok none) ∧
    (∀ rm addr nm, firstMatchBy ("mac") macaddr (streamRecords trs) = some rm →
      alookup rm ("dhcpServer") = some (some addr) →
      resolveName bd addr = some nm →
      (find_dhcp_lease_macaddr bd macaddr trs).result =
        Except.ok (some (recSet rm ("dhcpServerName") (some nm))) ∧
      (find_dhcp_lease_macaddr bd macaddr trs).cancelledAll = true) := by
  have hev : taskerEvents trs = (streamRecords trs).map StreamEvent.record :=
    taskerEvents_of_no_hard trs hok
  constructor
  · intro hnm
    rw [find_dhcp_lease_macaddr, hev,
        findLoopBy_no_match bd ("mac") macaddr (streamRecords trs) hf hnm]
  · intro rm addr nm hm hds hnm
    have hloop := findLoopBy_match bd ("mac") macaddr (streamRecords trs) rm hf hm
    have henrich : enrich bd rm = Except.ok (recSet rm ("dhcpServerName") (some nm)) := by
      simp [enrich, hds, hnm]
    rw [henrich] at hloop
    rw [find_dhcp_lease_macaddr, hev]
    exact ⟨by rw [hloop.1]; rfl, hloop.2⟩

/-- Witness for C9: the record stores `aa:bb:cc:dd:ee:ff`; querying the
upper-case form returns `None` (no normalisation), and querying the exact
lower-case form returns the enriched record. -/
theorem C9_find_first_mac_exact_witness :
    (find_dhcp_lease_macaddr [(("core1", "10.0.0.1"))] ("AA:BB:CC:DD:EE:FF")
        [TaskResult.response (Response.mk 200 ("")
          [[(("mac", some ("aa:bb:cc:dd:ee:ff"))), (("dhcpServer", some ("10.0.0.1")))]])]).result
      = Except.ok none ∧
    (find_dhcp_lease_macaddr [(("core1", "10.0.0.1"))] ("aa:bb:cc:dd:ee:ff")
        [TaskResult.response (Response.mk 200 ("")
          [[(("mac", some ("aa:bb:cc:dd:ee:ff"))), (("dhcpServer", some ("10.0.0.1")))]])]).result
      = Except.ok (some (recSet
          [(("mac", some ("aa:bb:cc:dd:ee:ff"))), (("dhcpServer", some ("10.0.0.1")))]
          ("dhcpServerName") (some ("core1")))) := by
  refine ⟨(C9_find_first_mac_exact [(("core1", "10.0.0.1"))] ("AA:BB:CC:DD:EE:FF")
      [TaskResult.response (Response.mk 200 ("")
        [[(("mac", some ("aa:bb:cc:dd:ee:ff"))), (("dhcpServer", some ("10.0.0.1")))]])]
      (by decide) (by decide)).1 (by decide), ?_⟩
  exact ((C9_find_first_mac_exact [(("core1", "10.0.0.1"))] ("aa:bb:cc:dd:ee:ff")
      [TaskResult.response (Response.mk 200 ("")
        [[(("mac", some ("aa:bb:cc:dd:ee:ff"))), (("dhcpServer", some ("10.0.0.1")))]])]
      (by decide) (by decide)).2
    [(("mac", some ("aa:bb:cc:dd:ee:ff"))), (("dhcpServer", some ("10.0.0.1")))]
    ("10.0.0.1") ("core1") (by decide) (by decide) (by decide)).1

theorem matchLoop_records (matcher : LeaseRec → Bool) (recs : List LeaseRec) :
    matchLoop matcher (recs.map StreamEvent.record) =
      (Except.ok (recs.filter matcher), recs.length) := by
  induction recs with
  | nil => simp [matchLoop]
  | cons r rest ih =>
    simp only [List.map_cons, matchLoop, ih]
    by_cases hm : matcher r <;> simp [List.filter_cons, hm, Except.map]

theorem enrich_eq_of_ok (bd : ServerDir) (r : LeaseRec) (h : enrichOk bd r = true) :
    enrich bd r = Except.ok (enrichF bd r) := by
  cases hds : alookup r ("dhcpServer") with
  | none => exfalso; simp [enrichOk, enrich, hds] at h
  | some v =>
    cases v with
    | none => exfalso; simp [enrichOk, enrich, hds] at h
    | some addr =>
      cases hr : resolveName bd addr with
      | none => exfalso; simp [enrichOk, enrich, hds, hr] at h
      | some nm => simp [enrich, enrichF, hds, hr]

theorem enrichAll_ok (bd : ServerDir) (l : List LeaseRec)
    (h : ∀ r ∈ l, enrichOk bd r = true) :
    enrichAll bd l = Except.ok (l.map (enrichF bd)) := by
  induction l with
  | nil => simp [enrichAll]
  | cons r rest ih =>
    have hr := enrich_eq_of_ok bd r (h r (by simp))
    simp only [enrichAll, hr, ih (fun r2 h2 => h r2 (by simp [h2])), List.map_cons]

/-- C5: when no task aborts the drain and every matching record's
`dhcpServer` resolves in the directory, `find_dhcp_lease_matching` applies
the matcher across the whole aggregated stream (its consumption count equals
the full stream length - no short-circuit), returns exactly the records
satisfying the matcher, in completion order with no duplicates and no
omissions, each enriched with its resolved `dhcpServerName`, and never runs
any cancellation. -/
theorem C5_find_all_matching (bd : ServerDir) (matcher : LeaseRec → Bool)
    (trs : List TaskResult)
    (hok : ∀ tr ∈ trs, isHardError tr = false)
    (hen : ∀ r ∈ (streamRecords trs).filter matcher, enrichOk bd r = true) :
    (find_dhcp_lease_matching bd matcher trs).result =
      Except.ok (((streamRecords trs).filter matcher).map (enrichF bd)) ∧
    (find_dhcp_lease_matching bd matcher trs).consumed = (taskerEvents trs).length ∧
    (find_dhcp_lease_matching bd matcher trs).cancelledAll = false := by
  have hev : taskerEvents trs = (streamRecords trs).map StreamEvent.record :=
    taskerEvents_of_no_hard trs hok
  have hml := matchLoop_records matcher (streamRecords trs)
  rw [find_dhcp_lease_matching, hev, hml]
  refine ⟨?_, ?_, rfl⟩
  · exact enrichAll_ok bd _ hen
  · simp

/-- Witness for C5: an always-true matcher over two servers (one with two
records, one timing out) returns every record from every responding server,
enriched, in completion order, having consumed the full stream and cancelled
nothing. -/
theorem C5_find_all_matching_witness :
    (find_dhcp_lease_matching [(("core1", "10.0.0.1"))] (fun _ => true)
        [TaskResult.response (Response.mk 200 ("")
          [[(("address", some ("10.1.1.5"))), (("dhcpServer", some ("10.0.0.1")))],
           [(("address", some ("10.1.1.6"))), (("dhcpServer", some ("10.0.0.1")))]]),
         TaskResult.readTimeout]).result
      = Except.ok
          [recSet [(("address", some ("10.1.1.5"))), (("dhcpServer", some ("10.0.0.1")))]
             ("dhcpServerName") (some ("core1")),
           recSet [(("address", some ("10.1.1.6"))), (("dhcpServer", some ("10.0.0.1")))]
             ("dhcpServerName") (some ("core1"))] ∧
    (find_dhcp_lease_matching [(("core1", "10.0.0.1"))] (fun _ => true)
        [TaskResult.response (Response.mk 200 ("")
          [[(("address", some ("10.1.1.5"))), (("dhcpServer", some ("10.0.0.1")))],
           [(("address", some ("10.1.1.6"))), (("dhcpServer", some ("10.0.0.1")))]]),
         TaskResult.readTimeout]).consumed = 2 ∧
    (find_dhcp_lease_matching [(("core1", "10.0.0.1"))] (fun _ => true)
        [TaskResult.response (Response.mk 200 ("")
          [[(("address", some ("10.1.1.5"))), (("dhcpServer", some ("10.0.0.1")))],
           [(("address", some ("10.1.1.6"))), (("dhcpServer", some ("10.0.0.1")))]]),
         TaskResult.readTimeout]).cancelledAll = false := by
  have h := C5_find_all_matching [(("core1", "10.0.0.1"))] (fun _ => true)
    [TaskResult.response (Response.mk 200 ("")
      [[(("address", some ("10.1.1.5"))), (("dhcpServer", some ("10.0.0.1")))],
       [(("address", some ("10.1.1.6"))), (("dhcpServer", some ("10.0.0.1")))]]),
     TaskResult.readTimeout]
    (by decide) (by decide)
  exact ⟨by rw [h.1]; rfl, by rw [h.2.1]; rfl, h.2.2⟩

/-- C10: the server-selection of `_fetch_dhcp_leases_tasker` - through which
every aggregation and find operation routes its `servers` argument - treats a
supplied empty list exactly like an omitted argument (Python falsiness of
`servers`): both select every address currently in the directory, not zero
servers. -/
theorem C10_empty_server_list_means_all (bd : ServerDir) :
    tasker_servers_ip bd (some []) = tasker_servers_ip bd none ∧
    tasker_servers_ip bd (some []) = Except.ok (bd.map (fun p => p.2)) := by
  constructor <;> simp [tasker_servers_ip, serversTruthy]

theorem substringNameMatcher_lowered (v : String) (r : LeaseRec) :
    substringNameMatcher v r =
      match nameLowered r with
      | some low => charsContains ((strToLower v).data) low.data
      | none => false := by
  unfold substringNameMatcher nameLowered containsCI
  cases hds : alookup r ("name") with
  | none => rfl
  | some o => cases o with
    | none => rfl
    | some nm => rfl

theorem regexNameMatcher_lowered (p : String → Bool) (r : LeaseRec) :
    regexNameMatcher p r =
      match nameLowered r with
      | some low => p low
      | none => false := by
  unfold regexNameMatcher nameLowered
  cases hds : alookup r ("name") with
  | none => rfl
  | some o => cases o with
    | none => rfl
    | some nm => rfl

/-- C8: the name-matching convenience search (modelled from the spec, absent
from src/) requires a discriminator: supplying neither a substring value nor
a regex pattern fails with `InvalidArgument`; whenever a matcher is returned
(substring or regex branch), a record with a null or missing `name` never
matches and never errors (the matcher is a total boolean function), and the
matcher's verdict depends only on the lower-cased `name` - so matching is
case-insensitive. -/
theorem C8_name_matcher_discriminator :
    nameMatcherModel none none = Except.error TWErr.invalidArgument ∧
    (∀ (value : Option String) (pat : Option (String → Bool)) (m : LeaseRec → Bool),
      nameMatcherModel value pat = Except.ok m →
      (∀ r, nameLowered r = none → m r = false) ∧
      (∀ r1 r2, nameLowered r1 = nameLowered r2 → m r1 = m r2)) := by
  refine ⟨rfl, ?_⟩
  intro value pat m hm
  cases value with
  | some v =>
    have hmv : m = substringNameMatcher v := by
      have heq : nameMatcherModel (some v) pat = Except.ok (substringNameMatcher v) := rfl
      rw [heq] at hm
      exact (Except.ok.inj hm).symm
    subst hmv
    constructor
    · intro r hr
      rw [substringNameMatcher_lowered, hr]
    · intro r1 r2 h12
      rw [substringNameMatcher_lowered, substringNameMatcher_lowered, h12]
  | none =>
    cases pat with
    | none => exact absurd hm (by simp [nameMatcherModel])
    | some p =>
      have hmv : m = regexNameMatcher p := by
        have heq : nameMatcherModel none (some p) = Except.ok (regexNameMatcher p) := rfl
        rw [heq] at hm
        exact (Except.ok.inj hm).symm
      subst hmv
      constructor
      · intro r hr
        rw [regexNameMatcher_lowered, hr]
      · intro r1 r2 h12
        rw [regexNameMatcher_lowered, regexNameMatcher_lowered, h12]

/-- Witness for C8: no discriminator fails with `InvalidArgument`; with the
substring `host`, a null name does not match, and two records whose names
differ only by case get the same verdict. -/
theorem C8_name_matcher_discriminator_witness :
    nameMatcherModel none none = Except.error TWErr.invalidArgument ∧
    substringNameMatcher ("host") [(("name", (none : Option String)))] = false ∧
    substringNameMatcher ("host") [(("name", some ("HOST-A")))] =
      substringNameMatcher ("host") [(("name", some ("host-a")))] := by
  refine ⟨C8_name_matcher_discriminator.1, ?_, ?_⟩
  · exact (C8_name_matcher_discriminator.2 (some ("host")) none
      (substringNameMatcher ("host")) rfl).1 [(("name", (none : Option String)))] rfl
  · exact (C8_name_matcher_discriminator.2 (some ("host")) none
      (substringNameMatcher ("host")) rfl).2
      [(("name", some ("HOST-A")))] [(("name", some ("host-a")))] (by decide)

/-- Witness for C10: with a one-server directory, the empty list and the
omitted argument both select that server's address. -/
theorem C10_empty_server_list_means_all_witness :
    tasker_servers_ip [(("core1", "10.0.0.1"))] (some []) =
      tasker_servers_ip [(("core1", "10.0.0.1"))] none ∧
    tasker_servers_ip [(("core1", "10.0.0.1"))] (some []) =
      Except.ok (["10.0.0.1"]) :=
  C10_empty_server_list_means_all [(("core1", "10.0.0.1"))]
